import Mathlib

/-!
Verification development for the TLS-contact news notifier
(`scraper.py`): a single-file fetch → parse → diff → filter → notify →
persist pipeline.  The Python source is shallowly embedded below:

* JSON values that can live in the cache file are modelled by `JsonValue`;
  array elements only ever interact with the pipeline through equality
  with a string and through truthiness, so nested composite elements are
  modelled opaquely by `JsonAtom.acomposite`.
* The cache file on disk is a `FileState` (missing, unreadable JSON, or a
  parsed JSON value).
* Fallible Python operations (`x in container` on a non-container raises
  `TypeError`) return `Except PyError`.
* The `tenacity` retry decorators (`stop_after_attempt`,
  `wait_exponential(multiplier=1, min=4, max=10)`) are modelled by
  `retrySimE`/`retrySimB`, which also report the number of attempts made
  and the backoff waits inserted between attempts.
* `main` is modelled by `mainRun`, a pure function from a `Config`
  (recipient list, cache-file state, today's date as a proleptic
  Gregorian ordinal, and oracles giving the outcome of each network
  attempt) to a `RunResult` (broadcast messages, the event trace of
  sends and saves, and the final cache-file state).
-/

/-- Elements of a JSON array, as far as the pipeline can observe them:
`ident not in cached` only compares elements with a string for equality,
so nested arrays/objects are modelled opaquely (they never equal a
string). -/
inductive JsonAtom where
  | anull
  | abool (b : Bool)
  | anum (n : Int)
  | astr (s : String)
  | acomposite (tag : Nat)
deriving DecidableEq, Repr

/-- A parsed JSON value as returned by `json.load`.  Only the keys of an
object are kept: the pipeline observes objects only through truthiness
and key membership. -/
inductive JsonValue where
  | jnull
  | jbool (b : Bool)
  | jnum (n : Int)
  | jstr (s : String)
  | jarr (elems : List JsonAtom)
  | jobj (keys : List String)
deriving DecidableEq, Repr

/-- The state of the cache file on disk. -/
inductive FileState where
  | missing
  | invalidJson
  | validJson (v : JsonValue)
deriving DecidableEq, Repr

/-- Python exceptions that the embedded fragment can raise and `main`
does not catch. -/
inductive PyError where
  | typeError
deriving DecidableEq, Repr

/-- `load_cached_news` (scraper.py lines 79-87): a missing file or
non-JSON content yields the empty list; any successfully parsed JSON
value is returned as-is (only `json.JSONDecodeError`/`TypeError` are
caught). -/
def loadCachedNews : FileState → JsonValue
  | .missing => .jarr []
  | .invalidJson => .jarr []
  | .validJson v => v

/-- Python truthiness of a loaded JSON value (`not cached_identifiers`,
line 114). -/
def pyFalsy : JsonValue → Bool
  | .jnull => true
  | .jbool b => !b
  | .jnum n => n == 0
  | .jstr s => s.isEmpty
  | .jarr xs => xs.isEmpty
  | .jobj ks => ks.isEmpty

/-- Split a character list at the leftmost occurrence of `sep`,
returning the part before and the part after it. -/
def splitFirstChars (sep : List Char) : List Char → Option (List Char × List Char)
  | [] => if sep.isEmpty then some ([], []) else none
  | c :: rest =>
    if sep.isPrefixOf (c :: rest) then some ([], (c :: rest).drop sep.length)
    else
      match splitFirstChars sep rest with
      | none => none
      | some (pre, post) => some (c :: pre, post)

/-- Python `s.split(sep, 1)`: `none` when `sep` does not occur in `s`
(Python then returns the one-element list `[s]`), otherwise the parts
before and after the first occurrence. -/
def pySplitOnce (sep s : String) : Option (String × String) :=
  (splitFirstChars sep.toList s.toList).map (fun p => (String.mk p.1, String.mk p.2))

/-- Python substring test `needle in hay` for strings. -/
def pyStrContains (hay needle : String) : Bool :=
  (splitFirstChars needle.toList hay.toList).isSome

/-- Does this JSON array element equal the Python string `x`? -/
def atomEqStr (a : JsonAtom) (x : String) : Bool :=
  match a with
  | .astr s => s == x
  | _ => false

/-- Python `x in container` for a loaded JSON value: list membership,
dict key membership, substring test for strings; `TypeError` otherwise. -/
def pyContains (container : JsonValue) (x : String) : Except PyError Bool :=
  match container with
  | .jarr xs => .ok (xs.any (fun a => atomEqStr a x))
  | .jobj ks => .ok (ks.any (fun k => k == x))
  | .jstr t => .ok (pyStrContains t x)
  | _ => .error .typeError

/-- The list comprehension `[ident for ident in latest_identifiers if
ident not in cached_identifiers]` (line 121); the first `TypeError`
raised by `in` aborts the run. -/
def diffIdents (latest : List String) (cached : JsonValue) : Except PyError (List String) :=
  match latest with
  | [] => .ok []
  | i :: rest =>
    match pyContains cached i with
    | .error e => .error e
    | .ok b =>
      match diffIdents rest cached with
      | .error e => .error e
      | .ok tail => .ok (if b then tail else i :: tail)

/-- The diff as the specification states it: items of `latest` absent
from `cached`, in `latest`'s order.  (Spec-side definition, to be
compared with `diffIdents`.) -/
def specDiff (latest cached : List String) : List String :=
  latest.filter (fun i => decide (i ∉ cached))

/-- `identifier.split(" || ", 1)` followed by
`(parts[0], parts[1]) if len(parts) > 1 else ("Unknown Date", identifier)`
(lines 130-131). -/
def identifierParts (ident : String) : String × String :=
  match pySplitOnce " || " ident with
  | some (d, t) => (d, t)
  | none => ("Unknown Date", ident)

/-- `TLS_CONTACT_URL` (line 17). -/
def tlsContactUrl : String := "https://it.tlscontact.com/by/msq/page.php?pid=news"

/-- The notification body built on line 144. -/
def buildMessage (titlePart : String) : String :=
  "🆕 Новая новость TLScontact: " ++ titlePart ++ "\nПроверьте: " ++ tlsContactUrl

/-- Numeric value of a decimal digit character. -/
def digitVal (c : Char) : Nat := c.toNat - 48

/-- Consume leading decimal digits, returning their value, how many
there were, and the rest of the input. -/
def takeDigits : List Char → Nat → Nat → Nat × Nat × List Char
  | [], v, n => (v, n, [])
  | c :: rest, v, n =>
    if c.isDigit then takeDigits rest (v * 10 + digitVal c) (n + 1)
    else (v, n, c :: rest)

/-- Gregorian leap-year rule (as used by `datetime.date`). -/
def isLeap (y : Nat) : Bool :=
  y % 4 == 0 && (y % 100 != 0 || y % 400 == 0)

/-- Length of month `m` of year `y` (months are 1-based). -/
def daysInMonth (y m : Nat) : Nat :=
  match m with
  | 2 => if isLeap y then 29 else 28
  | 4 => 30
  | 6 => 30
  | 9 => 30
  | 11 => 30
  | _ => 31

/-- Days in the years before year `y` (`datetime`'s `_days_before_year`). -/
def daysBeforeYear (y : Nat) : Nat :=
  let n := y - 1
  n * 365 + n / 4 - n / 100 + n / 400

/-- Days in year `y` before month `m`. -/
def daysBeforeMonth (y m : Nat) : Nat :=
  let l := if isLeap y then 1 else 0
  match m with
  | 1 => 0
  | 2 => 31
  | 3 => 59 + l
  | 4 => 90 + l
  | 5 => 120 + l
  | 6 => 151 + l
  | 7 => 181 + l
  | 8 => 212 + l
  | 9 => 243 + l
  | 10 => 273 + l
  | 11 => 304 + l
  | _ => 334 + l

/-- `datetime.date(y, m, d).toordinal()`: day number in the proleptic
Gregorian calendar, with 0001-01-01 as day 1.  Python's `date`
comparison and `timedelta` arithmetic coincide with comparison and
subtraction of these ordinals. -/
def toOrdinal (y m d : Nat) : Nat :=
  daysBeforeYear y + daysBeforeMonth y m + d

/-- `datetime.datetime.strptime(s, "%Y-%m-%d")` (line 136), as `none` on
`ValueError`.  CPython's format regex demands exactly four year digits,
one or two month digits (value 1-12), one or two day digits (value
1-31), a full match, and then `date` validates the day against the
month's length and rejects year 0. -/
def parseIsoDate (s : String) : Option (Nat × Nat × Nat) :=
  match takeDigits s.toList 0 0 with
  | (y, yc, '-' :: r2) =>
    match takeDigits r2 0 0 with
    | (m, mc, '-' :: r4) =>
      match takeDigits r4 0 0 with
      | (d, dc, r5) =>
        if yc == 4 && 1 ≤ y && 1 ≤ mc && mc ≤ 2 && 1 ≤ m && m ≤ 12 &&
           1 ≤ dc && dc ≤ 2 && 1 ≤ d && d ≤ daysInMonth y m && r5.isEmpty
        then some (y, m, d)
        else none
    | _ => none
  | _ => none

/-- `tenacity.wait_exponential(multiplier, min, max)` at (1-based)
attempt number `k`: the exponential `multiplier * 2^(k-1)` clamped into
`[minW, maxW]`. -/
def waitExponential (multiplier minW maxW k : Nat) : Nat :=
  Nat.max minW (Nat.min (multiplier * 2 ^ (k - 1)) maxW)

/-- The outcome of one attempt of `get_latest_news`'s body: a successful
fetch+parse with the extracted identifier list, a
`requests.exceptions.RequestException`, a page without the expected
`div.card.card-visa` container, or an unexpected parsing exception. -/
inductive FetchOutcome where
  | success (ids : List String)
  | netError
  | noContainer
  | parseError
deriving DecidableEq, Repr

/-- The body of `get_latest_news` (lines 40-77): every failure path is
caught inside the function and converted to `return []`, so the body
never raises. -/
def getLatestNewsBody : FetchOutcome → Except PyError (List String)
  | .success ids => .ok ids
  | .netError => .ok []
  | .noContainer => .ok []
  | .parseError => .ok []

/-- `tenacity.retry` around an `Except`-valued body: attempt `k` runs
the body; an `.ok` result is returned at once, an exception retries
(waiting `wait k`) until the fuel (`stop_after_attempt`) is exhausted,
at which point the final error surfaces.  Returns the result, the
number of attempts made, and the list of waits inserted. -/
def retrySimE {α : Type} (wait : Nat → Nat) (body : Nat → Except PyError α) :
    Nat → Nat → Except PyError α × Nat × List Nat
  | 0, k => (body k, 1, [])
  | 1, k => (body k, 1, [])
  | f + 2, k =>
    match body k with
    | .ok a => (.ok a, 1, [])
    | .error _ =>
      ((retrySimE wait body (f + 1) (k + 1)).1,
       (retrySimE wait body (f + 1) (k + 1)).2.1 + 1,
       wait k :: (retrySimE wait body (f + 1) (k + 1)).2.2)

/-- `tenacity.retry` around a body that merely succeeds or raises
(`send_viber_message`): returns whether it eventually succeeded, the
number of attempts, and the waits inserted. -/
def retrySimB (wait : Nat → Nat) (oracle : Nat → Bool) :
    Nat → Nat → Bool × Nat × List Nat
  | 0, k => (oracle k, 1, [])
  | 1, k => (oracle k, 1, [])
  | f + 2, k =>
    if oracle k then (true, 1, [])
    else ((retrySimB wait oracle (f + 1) (k + 1)).1,
          (retrySimB wait oracle (f + 1) (k + 1)).2.1 + 1,
          wait k :: (retrySimB wait oracle (f + 1) (k + 1)).2.2)

/-- `get_latest_news` with its decorator
`retry(stop=stop_after_attempt(3), wait=wait_exponential(multiplier=1, min=4, max=10))`
(line 39), run against an oracle giving each attempt's outcome. -/
def getLatestNewsRun (oracle : Nat → FetchOutcome) :
    Except PyError (List String) × Nat × List Nat :=
  retrySimE (waitExponential 1 4 10) (fun k => getLatestNewsBody (oracle k)) 3 1

/-- The identifier list `main` receives from `get_latest_news`. -/
def getLatestNewsIds (oracle : Nat → FetchOutcome) : List String :=
  match (getLatestNewsRun oracle).1 with
  | .ok l => l
  | .error _ => []

/-- `send_viber_message` with its decorator
`retry(stop=stop_after_attempt(5), wait=wait_exponential(multiplier=1, min=4, max=10))`
(line 97); the body re-raises on failure, so here the retry loop is
live.  The oracle says whether attempt `k` succeeds. -/
def sendViberMessageRun (oracle : Nat → Bool) : Bool × Nat × List Nat :=
  retrySimB (waitExponential 1 4 10) oracle 5 1

/-- `save_news_cache(identifiers)` (lines 89-95): the file afterwards
holds the JSON array of the given identifiers. -/
def saveNewsCache (ids : List String) : FileState :=
  .validJson (.jarr (ids.map .astr))

/-- Events observable during a run: a message delivered to a recipient,
a send abandoned after exhausting its retries (line 150-151), or a
cache save. -/
inductive Event where
  | sent (receiver message : String)
  | sendFailed (receiver message : String)
  | savedCache (ids : List String)
deriving DecidableEq, Repr

/-- An event with the success/failure of a send erased. -/
inductive EventShape where
  | send (receiver message : String)
  | save (ids : List String)
deriving DecidableEq, Repr

/-- Erase the outcome of a send event. -/
def eventShape : Event → EventShape
  | .sent r m => .send r m
  | .sendFailed r m => .send r m
  | .savedCache ids => .save ids

/-- Is this event a notification attempt (as opposed to a cache save)? -/
def Event.isSend : Event → Bool
  | .sent _ _ => true
  | .sendFailed _ _ => true
  | .savedCache _ => false

/-- The inputs of one invocation of `main`: the configured recipients,
the cache file, today's date as a Gregorian ordinal, and oracles giving
the outcome of each fetch attempt and of each send attempt (identifier
index, recipient index, attempt number). -/
structure Config where
  receiverIds : List String
  fileState : FileState
  todayOrd : Int
  fetchOracle : Nat → FetchOutcome
  sendOracle : Nat → Nat → Nat → Bool

/-- Replace the send oracle of a configuration. -/
def setSendOracle (cfg : Config) (so : Nat → Nat → Nat → Bool) : Config :=
  ⟨cfg.receiverIds, cfg.fileState, cfg.todayOrd, cfg.fetchOracle, so⟩

/-- Replace the cache-file state of a configuration. -/
def setFileState (cfg : Config) (fs : FileState) : Config :=
  ⟨cfg.receiverIds, fs, cfg.todayOrd, cfg.fetchOracle, cfg.sendOracle⟩

/-- The observable outcome of a run of `main`: the (identifier, message)
pairs broadcast, the ordered trace of send and save events, what was
passed to `save_news_cache` (if anything), and the cache file
afterwards. -/
structure RunResult where
  broadcasts : List (String × String)
  events : List Event
  savedIds : Option (List String)
  finalFile : FileState
deriving DecidableEq, Repr

/-- The new identifiers `main` computes on line 121. -/
def newIdentsOf (cfg : Config) : Except PyError (List String) :=
  diffIdents (getLatestNewsIds cfg.fetchOracle) (loadCachedNews cfg.fileState)

/-- `cutoff_date` (line 125): set only on a first run (empty loaded
cache), to today minus 365 days. -/
def firstRunCutoff (cfg : Config) : Option Int :=
  if pyFalsy (loadCachedNews cfg.fileState) then some (cfg.todayOrd - 365) else none

/-- The `send_notification` decision (lines 133-141): `False` exactly
when a cutoff is active, the date part parses with `%Y-%m-%d`, and the
parsed date is strictly before the cutoff; a `ValueError` from parsing
is passed over, leaving the flag `True`. -/
def sendDecision (fc : Option Int) (datePart : String) : Bool :=
  match fc with
  | none => true
  | some c =>
    match parseIsoDate datePart with
    | none => true
    | some (y, m, d) => !(decide ((toOrdinal y m d : Int) < c))

/-- The recipient loop (lines 146-151): one retried send per recipient,
with the per-send `RetryError` caught and logged so the loop always
continues.  `i` is the identifier's index, `j` the current recipient
index (both feed the send oracle). -/
def sendAllReceivers (so : Nat → Nat → Nat → Bool) (i j : Nat) :
    List String → String → List Event
  | [], _ => []
  | r :: rest, message =>
    (if (sendViberMessageRun (so i j)).1 then Event.sent r message
     else Event.sendFailed r message)
    :: sendAllReceivers so i (j + 1) rest message

/-- Processing of one new identifier in the loop body (lines 129-151). -/
def notifyOne (so : Nat → Nat → Nat → Bool) (recv : List String) (fc : Option Int)
    (i : Nat) (ident : String) : List (String × String) × List Event :=
  let parts := identifierParts ident
  if sendDecision fc parts.1 then
    let message := buildMessage parts.2
    ([(ident, message)], sendAllReceivers so i 0 recv message)
  else ([], [])

/-- The loop over all new identifiers (line 129), in order. -/
def notifyAll (so : Nat → Nat → Nat → Bool) (recv : List String) (fc : Option Int)
    (i : Nat) : List String → List (String × String) × List Event
  | [] => ([], [])
  | ident :: rest =>
    ((notifyOne so recv fc i ident).1 ++ (notifyAll so recv fc (i + 1) rest).1,
     (notifyOne so recv fc i ident).2 ++ (notifyAll so recv fc (i + 1) rest).2)

/-- `main` (lines 107-156): abort on an empty recipient list; load the
cache; fetch; abort on an empty fetch result; diff (a `TypeError` from
`in` propagates); if nothing is new, stop without touching the file;
otherwise notify best-effort and then save the full fetch result. -/
def mainRun (cfg : Config) : Except PyError RunResult :=
  match cfg.receiverIds with
  | [] => .ok ⟨[], [], none, cfg.fileState⟩
  | _ :: _ =>
    match getLatestNewsIds cfg.fetchOracle with
    | [] => .ok ⟨[], [], none, cfg.fileState⟩
    | a :: as =>
      match newIdentsOf cfg with
      | .error e => .error e
      | .ok [] => .ok ⟨[], [], none, cfg.fileState⟩
      | .ok (i :: rest) =>
        .ok ⟨(notifyAll cfg.sendOracle cfg.receiverIds (firstRunCutoff cfg) 0 (i :: rest)).1,
             (notifyAll cfg.sendOracle cfg.receiverIds (firstRunCutoff cfg) 0 (i :: rest)).2
               ++ [.savedCache (a :: as)],
             some (a :: as), saveNewsCache (a :: as)⟩

/-- The effects of a run; an uncaught exception (`.error`) stops the
run before anything was sent or saved, leaving the file untouched. -/
def runEffect (cfg : Config) : RunResult :=
  match mainRun cfg with
  | .ok r => r
  | .error _ => ⟨[], [], none, cfg.fileState⟩

/-- The (identifier, message) pairs broadcast by a run. -/
def runBroadcasts (cfg : Config) : List (String × String) :=
  (runEffect cfg).broadcasts

/-- The identifiers for which a notification was broadcast. -/
def runNotified (cfg : Config) : List String :=
  (runBroadcasts cfg).map Prod.fst

/-- The ordered event trace of a run. -/
def runEvents (cfg : Config) : List Event :=
  (runEffect cfg).events

/-- What the run passed to `save_news_cache`, if anything. -/
def runSavedIds (cfg : Config) : Option (List String) :=
  (runEffect cfg).savedIds

/-- The cache file after the run. -/
def runFinalFile (cfg : Config) : FileState :=
  (runEffect cfg).finalFile

/-! ### Helper lemmas -/

/-- A retried body that succeeds at its first attempt returns at once. -/
theorem retrySimE_ok {α : Type} (wait : Nat → Nat) (body : Nat → Except PyError α)
    (f k : Nat) {a : α} (h : body k = .ok a) :
    retrySimE wait body f k = (.ok a, 1, []) := by
  match f with
  | 0 => simp [retrySimE, h]
  | 1 => simp [retrySimE, h]
  | f' + 2 => simp [retrySimE, h]

/-- `get_latest_news` never raises, so the `tenacity` wrapper always
returns after exactly one attempt with no backoff waits. -/
theorem getLatestNewsRun_eq (oracle : Nat → FetchOutcome) :
    getLatestNewsRun oracle = (.ok (getLatestNewsIds oracle), 1, []) := by
  obtain ⟨l, hl⟩ : ∃ l, getLatestNewsBody (oracle 1) = .ok l := by
    cases oracle 1 <;> exact ⟨_, rfl⟩
  have h1 : getLatestNewsRun oracle = (.ok l, 1, []) :=
    retrySimE_ok _ _ _ _ hl
  rw [h1]
  simp [getLatestNewsIds, h1]

/-- A JSON array of strings contains the Python string `x` exactly when
the underlying string list does. -/
theorem anyAstr (xs : List String) (x : String) :
    ((xs.map JsonAtom.astr).any fun a => atomEqStr a x) = decide (x ∈ xs) := by
  induction xs with
  | nil => simp
  | cons s rest ih =>
    simp only [List.map_cons, List.any_cons, ih]
    by_cases h : s = x
    · subst h; simp [atomEqStr]
    · have h2 : ¬ x = s := fun hs => h hs.symm
      simp [atomEqStr, h, h2]

/-- Membership in a JSON array of strings is string membership. -/
theorem pyContains_jarr_astr (xs : List String) (x : String) :
    pyContains (.jarr (xs.map .astr)) x = .ok (decide (x ∈ xs)) := by
  simp [pyContains, anyAstr]

/-- The diff of a string list against a cache that is a JSON array of
strings agrees with the specification's diff. -/
theorem diffIdents_jarr (latest cached : List String) :
    diffIdents latest (.jarr (cached.map .astr)) = .ok (specDiff latest cached) := by
  induction latest with
  | nil => simp [diffIdents, specDiff]
  | cons i rest ih =>
    simp only [diffIdents, pyContains_jarr_astr, ih, specDiff, List.filter_cons]
    by_cases h : i ∈ cached
    · simp [h, specDiff]
    · simp [h, specDiff]

/-- Diffing a list against itself yields nothing new. -/
theorem diffIdents_self (l : List String) :
    diffIdents l (.jarr (l.map .astr)) = .ok [] := by
  rw [diffIdents_jarr]
  have h : specDiff l l = [] := by
    simp only [specDiff]
    rw [List.filter_eq_nil_iff]
    intro a ha
    simp [ha]
  rw [h]

/-- Diffing against the empty cache returns the whole fetch result. -/
theorem diffIdents_empty_cache (l : List String) :
    diffIdents l (.jarr []) = .ok l := by
  induction l with
  | nil => simp [diffIdents]
  | cons i rest ih => simp [diffIdents, pyContains, ih]

/-- Every identifier the diff returns came from `latest`. -/
theorem diffIdents_subset {latest : List String} {c : JsonValue} {r : List String}
    (h : diffIdents latest c = .ok r) : ∀ x ∈ r, x ∈ latest := by
  induction latest generalizing r with
  | nil =>
    simp only [diffIdents, Except.ok.injEq] at h
    subst h
    simp
  | cons i rest ih =>
    simp only [diffIdents] at h
    cases hc : pyContains c i with
    | error e => rw [hc] at h; exact absurd h (by simp)
    | ok b =>
      rw [hc] at h
      cases hd : diffIdents rest c with
      | error e => rw [hd] at h; exact absurd h (by simp)
      | ok tail =>
        rw [hd] at h
        simp only [Except.ok.injEq] at h
        subst h
        intro x hx
        cases b with
        | true =>
          simp only [if_true] at hx
          exact List.mem_cons_of_mem _ (ih hd x hx)
        | false =>
          simp only [Bool.false_eq_true, if_false] at hx
          rcases List.mem_cons.mp hx with hx | hx
          · exact hx ▸ List.mem_cons_self _ _
          · exact List.mem_cons_of_mem _ (ih hd x hx)

/-- The shape of the recipient loop's event trace: one send event per
recipient, in order, regardless of per-send outcomes. -/
theorem sendAllReceivers_shape (so : Nat → Nat → Nat → Bool) (i : Nat) (m : String) :
    ∀ (recv : List String) (j : Nat),
      (sendAllReceivers so i j recv m).map eventShape
        = recv.map (fun r => EventShape.send r m) := by
  intro recv
  induction recv with
  | nil => intro j; simp [sendAllReceivers]
  | cons r rest ih =>
    intro j
    simp only [sendAllReceivers, List.map_cons, ih]
    cases hsc : (sendViberMessageRun (so i j)).1 <;> simp [eventShape]

/-- Every event of the recipient loop is a send event. -/
theorem sendAllReceivers_isSend (so : Nat → Nat → Nat → Bool) (i : Nat) (m : String) :
    ∀ (recv : List String) (j : Nat), ∀ e ∈ sendAllReceivers so i j recv m,
      e.isSend = true := by
  intro recv
  induction recv with
  | nil => intro j e h; simp [sendAllReceivers] at h
  | cons r rest ih =>
    intro j e h
    simp only [sendAllReceivers] at h
    rcases List.mem_cons.mp h with h1 | h1
    · subst h1
      cases hsc : (sendViberMessageRun (so i j)).1 <;> simp [hsc, Event.isSend]
    · exact ih (j + 1) e h1

/-- A new identifier whose send decision is positive is broadcast. -/
theorem notifyAll_fst_mem (so : Nat → Nat → Nat → Bool) (recv : List String)
    (fc : Option Int) :
    ∀ (idents : List String) (i : Nat) (ident : String), ident ∈ idents →
      sendDecision fc (identifierParts ident).1 = true →
      (ident, buildMessage (identifierParts ident).2) ∈ (notifyAll so recv fc i idents).1 := by
  intro idents
  induction idents with
  | nil => intro i ident h; exact absurd h (List.not_mem_nil _)
  | cons hd tl ih =>
    intro i ident hmem hdec
    simp only [notifyAll]
    rcases List.mem_cons.mp hmem with h | h
    · subst h
      refine List.mem_append.mpr (Or.inl ?_)
      simp [notifyOne, hdec]
    · exact List.mem_append.mpr (Or.inr (ih (i + 1) ident h hdec))

/-- Conversely, every broadcast pair comes from an identifier of the
list whose send decision was positive, with the message built from its
title part. -/
theorem notifyAll_fst_mem_rev (so : Nat → Nat → Nat → Bool) (recv : List String)
    (fc : Option Int) :
    ∀ (idents : List String) (i : Nat) (q : String × String),
      q ∈ (notifyAll so recv fc i idents).1 →
      q.1 ∈ idents ∧ sendDecision fc (identifierParts q.1).1 = true ∧
        q.2 = buildMessage (identifierParts q.1).2 := by
  intro idents
  induction idents with
  | nil => intro i q h; simp [notifyAll] at h
  | cons hd tl ih =>
    intro i q h
    simp only [notifyAll] at h
    rcases List.mem_append.mp h with h1 | h1
    · by_cases hdec : sendDecision fc (identifierParts hd).1 = true
      · simp only [notifyOne, hdec, if_true] at h1
        have hq := List.mem_singleton.mp h1
        subst hq
        exact ⟨List.mem_cons_self _ _, hdec, rfl⟩
      · simp [notifyOne, hdec] at h1
    · obtain ⟨ha, hb, hc⟩ := ih (i + 1) q h1
      exact ⟨List.mem_cons_of_mem _ ha, hb, hc⟩

/-- Every event the notify loop emits is a send event. -/
theorem notifyAll_snd_isSend (so : Nat → Nat → Nat → Bool) (recv : List String)
    (fc : Option Int) :
    ∀ (idents : List String) (i : Nat), ∀ e ∈ (notifyAll so recv fc i idents).2,
      e.isSend = true := by
  intro idents
  induction idents with
  | nil => intro i e h; simp [notifyAll] at h
  | cons hd tl ih =>
    intro i e h
    simp only [notifyAll] at h
    rcases List.mem_append.mp h with h1 | h1
    · by_cases hdec : sendDecision fc (identifierParts hd).1 = true
      · simp only [notifyOne, hdec, if_true] at h1
        exact sendAllReceivers_isSend so i _ recv 0 e h1
      · simp [notifyOne, hdec] at h1
    · exact ih (i + 1) e h1

/-- The broadcasts and the shape of the event trace do not depend on
the outcomes of the individual sends. -/
theorem notifyAll_oracle_irrel (so1 so2 : Nat → Nat → Nat → Bool) (recv : List String)
    (fc : Option Int) :
    ∀ (idents : List String) (i : Nat),
      (notifyAll so1 recv fc i idents).1 = (notifyAll so2 recv fc i idents).1 ∧
      ((notifyAll so1 recv fc i idents).2).map eventShape
        = ((notifyAll so2 recv fc i idents).2).map eventShape := by
  intro idents
  induction idents with
  | nil => intro i; exact ⟨rfl, rfl⟩
  | cons hd tl ih =>
    intro i
    obtain ⟨h1, h2⟩ := ih (i + 1)
    constructor
    · simp only [notifyAll]
      by_cases hdec : sendDecision fc (identifierParts hd).1 = true
      · simp [notifyOne, hdec, h1]
      · simp [notifyOne, hdec, h1]
    · simp only [notifyAll, List.map_append]
      by_cases hdec : sendDecision fc (identifierParts hd).1 = true
      · simp [notifyOne, hdec, h2, sendAllReceivers_shape]
      · simp [notifyOne, hdec, h2]

/-- The retry loop makes at most as many attempts as its
`stop_after_attempt` budget. -/
theorem retrySimB_le (w : Nat → Nat) (o : Nat → Bool) :
    ∀ f, 1 ≤ f → ∀ k, (retrySimB w o f k).2.1 ≤ f := by
  intro f
  induction f using Nat.strong_induction_on with
  | _ f ih =>
    match f with
    | 0 => intro h0; exact absurd h0 (by omega)
    | 1 => intro _ k; simp [retrySimB]
    | f' + 2 =>
      intro _ k
      by_cases hc : o k = true
      · simp [retrySimB, hc]
      · simp only [retrySimB, hc, Bool.false_eq_true, if_false]
        have h := ih (f' + 1) (by omega) (by omega) (k + 1)
        omega

/-- A send whose every attempt fails is abandoned after exactly 5
attempts, with backoff waits of 4, 4, 4 and 8 seconds in between
(each wait clamped into the configured `[4, 10]` band). -/
theorem sendRun_allFail (oracle : Nat → Bool) (h : ∀ k, oracle k = false) :
    sendViberMessageRun oracle = (false, 5, [4, 4, 4, 8]) := by
  have ho : oracle = fun _ => false := funext h
  subst ho
  rfl

/-- `main` on the notify-and-save path. -/
theorem mainRun_notify_path (cfg : Config) {r0 a n0 : String} {rs as ns : List String}
    (hr : cfg.receiverIds = r0 :: rs)
    (hl : getLatestNewsIds cfg.fetchOracle = a :: as)
    (hn : newIdentsOf cfg = .ok (n0 :: ns)) :
    mainRun cfg = .ok
      ⟨(notifyAll cfg.sendOracle cfg.receiverIds (firstRunCutoff cfg) 0 (n0 :: ns)).1,
       (notifyAll cfg.sendOracle cfg.receiverIds (firstRunCutoff cfg) 0 (n0 :: ns)).2
         ++ [.savedCache (a :: as)],
       some (a :: as), saveNewsCache (a :: as)⟩ := by
  simp only [mainRun, hr, hl, hn]

/-- `main` aborts before fetching when no recipients are configured. -/
theorem mainRun_no_receivers (cfg : Config) (h : cfg.receiverIds = []) :
    mainRun cfg = .ok ⟨[], [], none, cfg.fileState⟩ := by
  simp only [mainRun, h]

/-- `main` aborts when the fetch stage produced no identifiers. -/
theorem mainRun_empty_fetch (cfg : Config) {r0 : String} {rs : List String}
    (hr : cfg.receiverIds = r0 :: rs)
    (h : getLatestNewsIds cfg.fetchOracle = []) :
    mainRun cfg = .ok ⟨[], [], none, cfg.fileState⟩ := by
  simp only [mainRun, hr, h]

/-- `main` stops without side effects when nothing is new. -/
theorem mainRun_no_new (cfg : Config) {r0 a : String} {rs as : List String}
    (hr : cfg.receiverIds = r0 :: rs)
    (hl : getLatestNewsIds cfg.fetchOracle = a :: as)
    (hn : newIdentsOf cfg = .ok []) :
    mainRun cfg = .ok ⟨[], [], none, cfg.fileState⟩ := by
  simp only [mainRun, hr, hl, hn]

/-- A `TypeError` from the diff propagates out of `main`. -/
theorem mainRun_error (cfg : Config) {r0 a : String} {rs as : List String} {e : PyError}
    (hr : cfg.receiverIds = r0 :: rs)
    (hl : getLatestNewsIds cfg.fetchOracle = a :: as)
    (hn : newIdentsOf cfg = .error e) :
    mainRun cfg = .error e := by
  simp only [mainRun, hr, hl, hn]

/-- Project the final cache-file state out of a run known to finish
normally. -/
theorem runFinalFile_of_ok {cfg : Config} {r : RunResult}
    (h : mainRun cfg = .ok r) : runFinalFile cfg = r.finalFile := by
  simp [runFinalFile, runEffect, h]

/-! ### Claim theorems -/

/-- C1: the claim says the fetch retries the HTTP GET up to 3 attempts
with exponential backoff before surfacing failure.  In the code every
failure path of `get_latest_news` is caught inside the retried body and
converted to `return []`, so the `tenacity` wrapper sees a normal
return: for EVERY oracle (in particular one on which all three attempts
would fail) the run makes exactly one attempt, inserts no backoff
waits, and immediately surfaces the empty "no data" result. -/
theorem getLatestNews_retries_never_fire :
    (∀ oracle : Nat → FetchOutcome,
      getLatestNewsRun oracle = (.ok (getLatestNewsIds oracle), 1, []))
    ∧ getLatestNewsRun (fun _ => .netError) = (.ok [], 1, []) :=
  ⟨getLatestNewsRun_eq, rfl⟩

/-- C2: the computed set of new identifiers equals exactly the elements
of `latest` absent from `cached`, in `latest`'s order, and on the
spec's concrete example the result is exactly `["2024-01-03 || C"]`. -/
theorem diff_spec_refinement :
    (∀ (latest cached : List String),
      diffIdents latest (.jarr (cached.map .astr)) = .ok (specDiff latest cached))
    ∧ specDiff ["2024-01-02 || B", "2024-01-03 || C"]
        ["2024-01-01 || A", "2024-01-02 || B"] = ["2024-01-03 || C"]
    ∧ diffIdents ["2024-01-02 || B", "2024-01-03 || C"]
        (.jarr (["2024-01-01 || A", "2024-01-02 || B"].map .astr))
        = .ok ["2024-01-03 || C"] := by
  refine ⟨diffIdents_jarr, by decide, by rfl⟩

/-- C6: a run whose fetch/extract stage yields an empty result aborts
before notifying or saving: no events are emitted, nothing is passed to
`save_news_cache`, and the cache file afterwards equals the cache file
before. -/
theorem empty_fetch_aborts_run (cfg : Config)
    (hempty : getLatestNewsIds cfg.fetchOracle = []) :
    mainRun cfg = .ok ⟨[], [], none, cfg.fileState⟩
    ∧ runEvents cfg = [] ∧ runBroadcasts cfg = []
    ∧ runSavedIds cfg = none ∧ runFinalFile cfg = cfg.fileState := by
  have hmain : mainRun cfg = .ok ⟨[], [], none, cfg.fileState⟩ := by
    cases hr : cfg.receiverIds with
    | nil => exact mainRun_no_receivers cfg hr
    | cons r rs => exact mainRun_empty_fetch cfg hr hempty
  exact ⟨hmain, by simp [runEvents, runEffect, hmain],
    by simp [runBroadcasts, runEffect, hmain],
    by simp [runSavedIds, runEffect, hmain],
    by simp [runFinalFile, runEffect, hmain]⟩

/-- Witness for C6 at a concrete input: every fetch attempt hits a
network error, so the run leaves the (missing) cache file untouched and
emits no events. -/
theorem empty_fetch_aborts_run_witness :
    runFinalFile (Config.mk ["r"] .missing 0 (fun _ => .netError)
        (fun _ _ _ => true)) = .missing
    ∧ runEvents (Config.mk ["r"] .missing 0 (fun _ => .netError)
        (fun _ _ _ => true)) = [] :=
  ⟨(empty_fetch_aborts_run (Config.mk ["r"] .missing 0 (fun _ => .netError)
      (fun _ _ _ => true)) rfl).2.2.2.2,
   (empty_fetch_aborts_run (Config.mk ["r"] .missing 0 (fun _ => .netError)
      (fun _ _ _ => true)) rfl).2.1⟩

/-- C7 counterexample: a cache file holding the valid JSON value `42` —
which is not an array of identifiers — is NOT loaded as the empty
sequence (only `JSONDecodeError`/`TypeError` are caught, so `json.load`'s
value is returned as-is), and the run then crashes with a `TypeError`
at `ident not in cached_identifiers` instead of proceeding as a first
run. -/
theorem cache_load_nonarray_cex :
    loadCachedNews (.validJson (.jnum 42)) = .jnum 42
    ∧ loadCachedNews (.validJson (.jnum 42)) ≠ .jarr []
    ∧ mainRun (Config.mk ["r"] (.validJson (.jnum 42)) 0
        (fun _ => .success ["x"]) (fun _ _ _ => true)) = .error .typeError :=
  ⟨rfl, by decide, rfl⟩

/-- C7 (amended): for every cache-file state that is missing or contains
invalid JSON, load returns the empty sequence, the run proceeds under
first-run semantics (the loaded cache is falsy, the diff returns the
whole fetch result) and does not crash; a valid-JSON value that is not
an array is instead returned by load as-is. -/
theorem cache_missing_or_invalid_is_first_run (cfg : Config)
    (h : cfg.fileState = .missing ∨ cfg.fileState = .invalidJson) :
    loadCachedNews cfg.fileState = .jarr []
    ∧ pyFalsy (loadCachedNews cfg.fileState) = true
    ∧ newIdentsOf cfg = .ok (getLatestNewsIds cfg.fetchOracle)
    ∧ ∃ r, mainRun cfg = .ok r := by
  have hload : loadCachedNews cfg.fileState = .jarr [] := by
    rcases h with h | h <;> rw [h] <;> rfl
  have hfal : pyFalsy (loadCachedNews cfg.fileState) = true := by rw [hload]; rfl
  have hnew : newIdentsOf cfg = .ok (getLatestNewsIds cfg.fetchOracle) := by
    rw [newIdentsOf, hload]
    exact diffIdents_empty_cache _
  refine ⟨hload, hfal, hnew, ?_⟩
  cases hr : cfg.receiverIds with
  | nil => exact ⟨_, mainRun_no_receivers cfg hr⟩
  | cons r rs =>
    cases hl : getLatestNewsIds cfg.fetchOracle with
    | nil => exact ⟨_, mainRun_empty_fetch cfg hr hl⟩
    | cons a as =>
      rw [hl] at hnew
      exact ⟨_, mainRun_notify_path cfg hr hl hnew⟩

/-- Witness for the amended C7 at a concrete input: a corrupt cache
file is loaded as the empty list and the run completes normally. -/
theorem cache_missing_or_invalid_is_first_run_witness :
    loadCachedNews FileState.invalidJson = .jarr []
    ∧ pyFalsy (loadCachedNews FileState.invalidJson) = true
    ∧ newIdentsOf (Config.mk ["r"] .invalidJson 0 (fun _ => .success ["x"])
        (fun _ _ _ => true))
      = .ok (getLatestNewsIds (Config.mk ["r"] .invalidJson 0
        (fun _ => .success ["x"]) (fun _ _ _ => true)).fetchOracle)
    ∧ ∃ r, mainRun (Config.mk ["r"] .invalidJson 0 (fun _ => .success ["x"])
        (fun _ _ _ => true)) = .ok r :=
  cache_missing_or_invalid_is_first_run
    (Config.mk ["r"] .invalidJson 0 (fun _ => .success ["x"]) (fun _ _ _ => true))
    (Or.inr rfl)

/-- C3: on a first run (loaded cache empty, hence falsy), a new
identifier whose date part parses as ISO `YYYY-MM-DD` and lies strictly
before today minus 365 days is not notified, while the persisted cache
is still the full fetch result (which contains it); on a non-first run
every new identifier is notified regardless of its date. -/
theorem firstRun_cutoff_suppression (cfg : Config) (ident : String) (newl : List String)
    (hrecv : cfg.receiverIds ≠ [])
    (hnew : newIdentsOf cfg = .ok newl)
    (hmem : ident ∈ newl) :
    (pyFalsy (loadCachedNews cfg.fileState) = true →
      ∀ y m d : Nat,
        parseIsoDate (identifierParts ident).1 = some (y, m, d) →
        (toOrdinal y m d : Int) < cfg.todayOrd - 365 →
        ident ∉ runNotified cfg
        ∧ runSavedIds cfg = some (getLatestNewsIds cfg.fetchOracle)
        ∧ ident ∈ getLatestNewsIds cfg.fetchOracle)
    ∧ (pyFalsy (loadCachedNews cfg.fileState) = false → ident ∈ runNotified cfg) := by
  obtain ⟨r0, rs, hr⟩ := List.exists_cons_of_ne_nil hrecv
  have hlat : ident ∈ getLatestNewsIds cfg.fetchOracle := diffIdents_subset hnew ident hmem
  obtain ⟨a, as, hl⟩ := List.exists_cons_of_ne_nil (List.ne_nil_of_mem hlat)
  obtain ⟨n0, ns, hnl⟩ := List.exists_cons_of_ne_nil (List.ne_nil_of_mem hmem)
  subst hnl
  have hmain := mainRun_notify_path cfg hr hl hnew
  have hbro : runBroadcasts cfg
      = (notifyAll cfg.sendOracle cfg.receiverIds (firstRunCutoff cfg) 0 (n0 :: ns)).1 := by
    simp [runBroadcasts, runEffect, hmain]
  constructor
  · intro hfr y m d hparse hold
    have hfc : firstRunCutoff cfg = some (cfg.todayOrd - 365) := by
      simp [firstRunCutoff, hfr]
    refine ⟨?_, ?_, hlat⟩
    · intro hcon
      simp only [runNotified, hbro] at hcon
      obtain ⟨q, hq, hq1⟩ := List.mem_map.mp hcon
      obtain ⟨_, hdec, _⟩ := notifyAll_fst_mem_rev cfg.sendOracle cfg.receiverIds
        (firstRunCutoff cfg) (n0 :: ns) 0 q hq
      rw [hq1] at hdec
      rw [hfc] at hdec
      simp [sendDecision, hparse, hold] at hdec
    · simp [runSavedIds, runEffect, hmain, hl]
  · intro hfr
    have hfc : firstRunCutoff cfg = none := by simp [firstRunCutoff, hfr]
    have hdec : sendDecision (firstRunCutoff cfg) (identifierParts ident).1 = true := by
      rw [hfc]
      rfl
    have hb := notifyAll_fst_mem cfg.sendOracle cfg.receiverIds (firstRunCutoff cfg)
      (n0 :: ns) 0 ident hmem hdec
    simp only [runNotified, hbro]
    exact List.mem_map.mpr ⟨_, hb, rfl⟩

/-- Witness for C3 at concrete inputs: with today = 2025-01-01
(ordinal 739252) on a first run, the item dated 2020-01-01 is
suppressed but persisted; on a non-first run an item dated 2010-01-01
is still notified. -/
theorem firstRun_cutoff_suppression_witness :
    ("2020-01-01 || Old" ∉ runNotified (Config.mk ["r"] .missing 739252
        (fun _ => .success ["2020-01-01 || Old", "2024-09-01 || New"]) (fun _ _ _ => true))
      ∧ runSavedIds (Config.mk ["r"] .missing 739252
          (fun _ => .success ["2020-01-01 || Old", "2024-09-01 || New"]) (fun _ _ _ => true))
        = some (getLatestNewsIds (Config.mk ["r"] .missing 739252
          (fun _ => .success ["2020-01-01 || Old", "2024-09-01 || New"])
          (fun _ _ _ => true)).fetchOracle)
      ∧ "2020-01-01 || Old" ∈ getLatestNewsIds (Config.mk ["r"] .missing 739252
          (fun _ => .success ["2020-01-01 || Old", "2024-09-01 || New"])
          (fun _ _ _ => true)).fetchOracle)
    ∧ "2010-01-01 || Ancient" ∈ runNotified (Config.mk ["r"]
        (.validJson (.jarr [.astr "seed"])) 739252
        (fun _ => .success ["2010-01-01 || Ancient"]) (fun _ _ _ => true)) :=
  ⟨(firstRun_cutoff_suppression
      (Config.mk ["r"] .missing 739252
        (fun _ => .success ["2020-01-01 || Old", "2024-09-01 || New"]) (fun _ _ _ => true))
      "2020-01-01 || Old" ["2020-01-01 || Old", "2024-09-01 || New"]
      (by decide) rfl (by decide)).1 rfl 2020 1 1 rfl (by decide),
   (firstRun_cutoff_suppression
      (Config.mk ["r"] (.validJson (.jarr [.astr "seed"])) 739252
        (fun _ => .success ["2010-01-01 || Ancient"]) (fun _ _ _ => true))
      "2010-01-01 || Ancient" ["2010-01-01 || Ancient"]
      (by decide) rfl (by decide)).2 rfl⟩

/-- C4: on a first run, a new identifier whose date part does not parse
as ISO `YYYY-MM-DD` — in particular the `"Unknown Date"` sentinel and
raw unparsed date text — is always notified, never suppressed by the
one-year cutoff (the `ValueError` branch passes and the send flag stays
set). -/
theorem unparsable_date_fail_open (cfg : Config) (ident : String) (newl : List String)
    (hrecv : cfg.receiverIds ≠ [])
    (hfr : pyFalsy (loadCachedNews cfg.fileState) = true)
    (hnew : newIdentsOf cfg = .ok newl)
    (hmem : ident ∈ newl)
    (hparse : parseIsoDate (identifierParts ident).1 = none) :
    ident ∈ runNotified cfg ∧ parseIsoDate "Unknown Date" = none := by
  obtain ⟨r0, rs, hr⟩ := List.exists_cons_of_ne_nil hrecv
  have hlat : ident ∈ getLatestNewsIds cfg.fetchOracle := diffIdents_subset hnew ident hmem
  obtain ⟨a, as, hl⟩ := List.exists_cons_of_ne_nil (List.ne_nil_of_mem hlat)
  obtain ⟨n0, ns, hnl⟩ := List.exists_cons_of_ne_nil (List.ne_nil_of_mem hmem)
  subst hnl
  have hmain := mainRun_notify_path cfg hr hl hnew
  have hbro : runBroadcasts cfg
      = (notifyAll cfg.sendOracle cfg.receiverIds (firstRunCutoff cfg) 0 (n0 :: ns)).1 := by
    simp [runBroadcasts, runEffect, hmain]
  have hfc : firstRunCutoff cfg = some (cfg.todayOrd - 365) := by
    simp [firstRunCutoff, hfr]
  have hdec : sendDecision (firstRunCutoff cfg) (identifierParts ident).1 = true := by
    rw [hfc]
    simp [sendDecision, hparse]
  have hb := notifyAll_fst_mem cfg.sendOracle cfg.receiverIds (firstRunCutoff cfg)
    (n0 :: ns) 0 ident hmem hdec
  refine ⟨?_, by decide⟩
  simp only [runNotified, hbro]
  exact List.mem_map.mpr ⟨_, hb, rfl⟩

/-- Witness for C4 at a concrete input: on a first run, an identifier
carrying the `"Unknown Date"` sentinel is notified. -/
theorem unparsable_date_fail_open_witness :
    "Unknown Date || A" ∈ runNotified (Config.mk ["r"] .missing 739252
        (fun _ => .success ["Unknown Date || A"]) (fun _ _ _ => true))
    ∧ parseIsoDate "Unknown Date" = none :=
  unparsable_date_fail_open
    (Config.mk ["r"] .missing 739252 (fun _ => .success ["Unknown Date || A"])
      (fun _ _ _ => true))
    "Unknown Date || A" ["Unknown Date || A"] (by decide) rfl rfl (by decide) rfl

/-- C5: when a run finds at least one new identifier, the cache that is
saved equals the full current fetch result (wholesale replacement) and
the save event comes only after every notification attempt; a run that
finds no new identifiers leaves the cache file untouched and saves
nothing. -/
theorem save_after_notifications (cfg : Config) (newl : List String)
    (hrecv : cfg.receiverIds ≠ [])
    (hnew : newIdentsOf cfg = .ok newl) :
    (newl ≠ [] →
      runSavedIds cfg = some (getLatestNewsIds cfg.fetchOracle)
      ∧ runFinalFile cfg = saveNewsCache (getLatestNewsIds cfg.fetchOracle)
      ∧ ∃ es, runEvents cfg = es ++ [Event.savedCache (getLatestNewsIds cfg.fetchOracle)]
          ∧ ∀ e ∈ es, Event.isSend e = true)
    ∧ (newl = [] →
      runSavedIds cfg = none ∧ runFinalFile cfg = cfg.fileState ∧ runEvents cfg = []) := by
  obtain ⟨r0, rs, hr⟩ := List.exists_cons_of_ne_nil hrecv
  constructor
  · intro hne
    obtain ⟨n0, ns, hnl⟩ := List.exists_cons_of_ne_nil hne
    subst hnl
    have hlat : n0 ∈ getLatestNewsIds cfg.fetchOracle :=
      diffIdents_subset hnew n0 (List.mem_cons_self _ _)
    obtain ⟨a, as, hl⟩ := List.exists_cons_of_ne_nil (List.ne_nil_of_mem hlat)
    have hmain := mainRun_notify_path cfg hr hl hnew
    refine ⟨by simp [runSavedIds, runEffect, hmain, hl],
      by simp [runFinalFile, runEffect, hmain, hl], ?_⟩
    refine ⟨(notifyAll cfg.sendOracle cfg.receiverIds (firstRunCutoff cfg) 0 (n0 :: ns)).2,
      ?_, ?_⟩
    · simp [runEvents, runEffect, hmain, hl]
    · exact notifyAll_snd_isSend cfg.sendOracle cfg.receiverIds (firstRunCutoff cfg)
        (n0 :: ns) 0
  · intro hnl
    subst hnl
    cases hl : getLatestNewsIds cfg.fetchOracle with
    | nil =>
      have hmain := mainRun_empty_fetch cfg hr hl
      exact ⟨by simp [runSavedIds, runEffect, hmain],
        by simp [runFinalFile, runEffect, hmain],
        by simp [runEvents, runEffect, hmain]⟩
    | cons a as =>
      have hmain := mainRun_no_new cfg hr hl hnew
      exact ⟨by simp [runSavedIds, runEffect, hmain],
        by simp [runFinalFile, runEffect, hmain],
        by simp [runEvents, runEffect, hmain]⟩

/-- Witness for C5 at concrete inputs: a run that found one new item
saves the whole fetch result after its send events; a run that found
nothing new leaves the file untouched. -/
theorem save_after_notifications_witness :
    (runSavedIds (Config.mk ["r"] .missing 0 (fun _ => .success ["x"]) (fun _ _ _ => true))
        = some (getLatestNewsIds (Config.mk ["r"] .missing 0 (fun _ => .success ["x"])
            (fun _ _ _ => true)).fetchOracle)
      ∧ runFinalFile (Config.mk ["r"] .missing 0 (fun _ => .success ["x"]) (fun _ _ _ => true))
        = saveNewsCache (getLatestNewsIds (Config.mk ["r"] .missing 0
            (fun _ => .success ["x"]) (fun _ _ _ => true)).fetchOracle)
      ∧ ∃ es, runEvents (Config.mk ["r"] .missing 0 (fun _ => .success ["x"])
            (fun _ _ _ => true))
          = es ++ [Event.savedCache (getLatestNewsIds (Config.mk ["r"] .missing 0
              (fun _ => .success ["x"]) (fun _ _ _ => true)).fetchOracle)]
          ∧ ∀ e ∈ es, Event.isSend e = true)
    ∧ (runSavedIds (Config.mk ["r"] (.validJson (.jarr [.astr "x"])) 0
          (fun _ => .success ["x"]) (fun _ _ _ => true)) = none
      ∧ runFinalFile (Config.mk ["r"] (.validJson (.jarr [.astr "x"])) 0
          (fun _ => .success ["x"]) (fun _ _ _ => true)) = .validJson (.jarr [.astr "x"])
      ∧ runEvents (Config.mk ["r"] (.validJson (.jarr [.astr "x"])) 0
          (fun _ => .success ["x"]) (fun _ _ _ => true)) = []) :=
  ⟨(save_after_notifications
      (Config.mk ["r"] .missing 0 (fun _ => .success ["x"]) (fun _ _ _ => true))
      ["x"] (by decide) rfl).1 (by decide),
   (save_after_notifications
      (Config.mk ["r"] (.validJson (.jarr [.astr "x"])) 0 (fun _ => .success ["x"])
        (fun _ _ _ => true))
      [] (by decide) rfl).2 rfl⟩

/-- C8: each individual send is retried up to 5 attempts (exactly 5
when every attempt fails, with backoff waits lying in the configured
band between base 4 and cap 10), and the outcomes of individual sends
are isolated: changing every send outcome changes neither the
broadcasts, nor what is saved, nor the final cache file, nor the
send/save skeleton of the event trace — so an exhausted send skips only
itself. -/
theorem send_retry_bounds_and_isolation :
    (∀ oracle : Nat → Bool,
      (sendViberMessageRun oracle).2.1 ≤ 5
      ∧ ((∀ k, oracle k = false) →
        sendViberMessageRun oracle = (false, 5, [4, 4, 4, 8])
        ∧ ∀ w ∈ (sendViberMessageRun oracle).2.2, 4 ≤ w ∧ w ≤ 10))
    ∧ (∀ (cfg : Config) (o2 : Nat → Nat → Nat → Bool),
      runBroadcasts (setSendOracle cfg o2) = runBroadcasts cfg
      ∧ runSavedIds (setSendOracle cfg o2) = runSavedIds cfg
      ∧ runFinalFile (setSendOracle cfg o2) = runFinalFile cfg
      ∧ (runEvents (setSendOracle cfg o2)).map eventShape
          = (runEvents cfg).map eventShape) := by
  constructor
  · intro oracle
    refine ⟨retrySimB_le _ _ 5 (by omega) 1, fun h => ?_⟩
    have hall := sendRun_allFail oracle h
    refine ⟨hall, ?_⟩
    rw [hall]
    decide
  · intro cfg o2
    cases hr : cfg.receiverIds with
    | nil =>
      have h1 := mainRun_no_receivers cfg hr
      have h2 : mainRun (setSendOracle cfg o2) = .ok ⟨[], [], none, cfg.fileState⟩ :=
        mainRun_no_receivers (setSendOracle cfg o2) hr
      exact ⟨by simp [runBroadcasts, runEffect, h1, h2],
        by simp [runSavedIds, runEffect, h1, h2],
        by simp [runFinalFile, runEffect, h1, h2],
        by simp [runEvents, runEffect, h1, h2]⟩
    | cons r rs =>
      cases hl : getLatestNewsIds cfg.fetchOracle with
      | nil =>
        have h1 := mainRun_empty_fetch cfg hr hl
        have h2 : mainRun (setSendOracle cfg o2) = .ok ⟨[], [], none, cfg.fileState⟩ :=
          mainRun_empty_fetch (setSendOracle cfg o2) hr hl
        exact ⟨by simp [runBroadcasts, runEffect, h1, h2],
          by simp [runSavedIds, runEffect, h1, h2],
          by simp [runFinalFile, runEffect, h1, h2],
          by simp [runEvents, runEffect, h1, h2]⟩
      | cons a as =>
        cases hn : newIdentsOf cfg with
        | error e =>
          have h1 := mainRun_error cfg hr hl hn
          have h2 : mainRun (setSendOracle cfg o2) = .error e :=
            mainRun_error (setSendOracle cfg o2) hr hl hn
          refine ⟨?_, ?_, ?_, ?_⟩ <;>
            · simp only [runBroadcasts, runSavedIds, runFinalFile, runEvents,
                runEffect, h1, h2]
              try rfl
        | ok newl =>
          cases newl with
          | nil =>
            have h1 := mainRun_no_new cfg hr hl hn
            have h2 : mainRun (setSendOracle cfg o2) = .ok ⟨[], [], none, cfg.fileState⟩ :=
              mainRun_no_new (setSendOracle cfg o2) hr hl hn
            exact ⟨by simp [runBroadcasts, runEffect, h1, h2],
              by simp [runSavedIds, runEffect, h1, h2],
              by simp [runFinalFile, runEffect, h1, h2],
              by simp [runEvents, runEffect, h1, h2]⟩
          | cons n0 ns =>
            have h1 := mainRun_notify_path cfg hr hl hn
            have h2 : mainRun (setSendOracle cfg o2) = .ok
                ⟨(notifyAll o2 cfg.receiverIds (firstRunCutoff cfg) 0 (n0 :: ns)).1,
                 (notifyAll o2 cfg.receiverIds (firstRunCutoff cfg) 0 (n0 :: ns)).2
                   ++ [.savedCache (a :: as)],
                 some (a :: as), saveNewsCache (a :: as)⟩ :=
              mainRun_notify_path (setSendOracle cfg o2) hr hl hn
            have hirr := notifyAll_oracle_irrel o2 cfg.sendOracle cfg.receiverIds
              (firstRunCutoff cfg) (n0 :: ns) 0
            refine ⟨?_, ?_, ?_, ?_⟩
            · simp only [runBroadcasts, runEffect, h1, h2]
              exact hirr.1
            · simp [runSavedIds, runEffect, h1, h2]
            · simp [runFinalFile, runEffect, h1, h2]
            · simp only [runEvents, runEffect, h1, h2, List.map_append]
              rw [hirr.2]

/-- Witness for C8 at concrete inputs: an always-failing send makes
exactly 5 attempts with in-band waits, and flipping every send outcome
of a concrete run changes none of its persistent effects. -/
theorem send_retry_bounds_and_isolation_witness :
    ((sendViberMessageRun (fun _ => false)).2.1 ≤ 5
      ∧ (sendViberMessageRun (fun _ => false) = (false, 5, [4, 4, 4, 8])
        ∧ ∀ w ∈ (sendViberMessageRun (fun _ => false)).2.2, 4 ≤ w ∧ w ≤ 10))
    ∧ (runBroadcasts (setSendOracle (Config.mk ["r1", "r2"] .missing 0
          (fun _ => .success ["x", "y"]) (fun _ _ _ => true)) (fun _ _ _ => false))
        = runBroadcasts (Config.mk ["r1", "r2"] .missing 0
          (fun _ => .success ["x", "y"]) (fun _ _ _ => true))
      ∧ runSavedIds (setSendOracle (Config.mk ["r1", "r2"] .missing 0
          (fun _ => .success ["x", "y"]) (fun _ _ _ => true)) (fun _ _ _ => false))
        = runSavedIds (Config.mk ["r1", "r2"] .missing 0
          (fun _ => .success ["x", "y"]) (fun _ _ _ => true))
      ∧ runFinalFile (setSendOracle (Config.mk ["r1", "r2"] .missing 0
          (fun _ => .success ["x", "y"]) (fun _ _ _ => true)) (fun _ _ _ => false))
        = runFinalFile (Config.mk ["r1", "r2"] .missing 0
          (fun _ => .success ["x", "y"]) (fun _ _ _ => true))
      ∧ (runEvents (setSendOracle (Config.mk ["r1", "r2"] .missing 0
          (fun _ => .success ["x", "y"]) (fun _ _ _ => true)) (fun _ _ _ => false))).map
            eventShape
        = (runEvents (Config.mk ["r1", "r2"] .missing 0
          (fun _ => .success ["x", "y"]) (fun _ _ _ => true))).map eventShape) :=
  ⟨⟨(send_retry_bounds_and_isolation.1 (fun _ => false)).1,
    (send_retry_bounds_and_isolation.1 (fun _ => false)).2 (fun _ => rfl)⟩,
   send_retry_bounds_and_isolation.2
     (Config.mk ["r1", "r2"] .missing 0 (fun _ => .success ["x", "y"]) (fun _ _ _ => true))
     (fun _ _ _ => false)⟩

/-- C9: re-running the pipeline against an unchanged source page (same
fetch oracle, cache file as the first run left it) computes zero new
identifiers, broadcasts nothing, emits no events, and leaves the cache
file exactly as it was — extraction order is preserved by the wholesale
save, so the re-saved content would be identical anyway. -/
theorem unchanged_page_idempotent (cfg : Config) (newl : List String)
    (hrecv : cfg.receiverIds ≠ [])
    (hok : newIdentsOf cfg = .ok newl) :
    newIdentsOf (setFileState cfg (runFinalFile cfg)) = .ok []
    ∧ runBroadcasts (setFileState cfg (runFinalFile cfg)) = []
    ∧ runEvents (setFileState cfg (runFinalFile cfg)) = []
    ∧ runFinalFile (setFileState cfg (runFinalFile cfg)) = runFinalFile cfg := by
  obtain ⟨r0, rs, hr⟩ := List.exists_cons_of_ne_nil hrecv
  cases hl : getLatestNewsIds cfg.fetchOracle with
  | nil =>
    have hmain := mainRun_empty_fetch cfg hr hl
    have hff : runFinalFile cfg = cfg.fileState := by simp [runFinalFile, runEffect, hmain]
    have hcfg : setFileState cfg (runFinalFile cfg) = cfg := by rw [hff]; rfl
    rw [hcfg]
    refine ⟨?_, ?_, ?_, rfl⟩
    · simp [newIdentsOf, hl, diffIdents]
    · simp [runBroadcasts, runEffect, hmain]
    · simp [runEvents, runEffect, hmain]
  | cons a as =>
    cases newl with
    | nil =>
      have hmain := mainRun_no_new cfg hr hl hok
      have hff : runFinalFile cfg = cfg.fileState := by simp [runFinalFile, runEffect, hmain]
      have hcfg : setFileState cfg (runFinalFile cfg) = cfg := by rw [hff]; rfl
      rw [hcfg]
      exact ⟨hok, by simp [runBroadcasts, runEffect, hmain],
        by simp [runEvents, runEffect, hmain], rfl⟩
    | cons n0 ns =>
      have hmain := mainRun_notify_path cfg hr hl hok
      have hff : runFinalFile cfg = saveNewsCache (a :: as) := by
        simp [runFinalFile, runEffect, hmain]
      have hnew2 : newIdentsOf (setFileState cfg (runFinalFile cfg)) = .ok [] := by
        show diffIdents (getLatestNewsIds cfg.fetchOracle)
          (loadCachedNews (runFinalFile cfg)) = .ok []
        rw [hl, hff]
        show diffIdents (a :: as) (.jarr ((a :: as).map .astr)) = .ok []
        exact diffIdents_self _
      have hmain2 : mainRun (setFileState cfg (runFinalFile cfg))
          = .ok ⟨[], [], none, runFinalFile cfg⟩ :=
        mainRun_no_new (setFileState cfg (runFinalFile cfg)) hr hl hnew2
      exact ⟨hnew2, by simp [runBroadcasts, runEffect, hmain2],
        by simp [runEvents, runEffect, hmain2],
        by rw [runFinalFile_of_ok hmain2]⟩

/-- Witness for C9 at a concrete input: a first run that saved
`["x"]`, re-run against the same page, finds nothing new and leaves
the cache file identical. -/
theorem unchanged_page_idempotent_witness :
    newIdentsOf (setFileState (Config.mk ["r"] .missing 0 (fun _ => .success ["x"])
        (fun _ _ _ => true))
      (runFinalFile (Config.mk ["r"] .missing 0 (fun _ => .success ["x"])
        (fun _ _ _ => true)))) = .ok []
    ∧ runBroadcasts (setFileState (Config.mk ["r"] .missing 0 (fun _ => .success ["x"])
        (fun _ _ _ => true))
      (runFinalFile (Config.mk ["r"] .missing 0 (fun _ => .success ["x"])
        (fun _ _ _ => true)))) = []
    ∧ runEvents (setFileState (Config.mk ["r"] .missing 0 (fun _ => .success ["x"])
        (fun _ _ _ => true))
      (runFinalFile (Config.mk ["r"] .missing 0 (fun _ => .success ["x"])
        (fun _ _ _ => true)))) = []
    ∧ runFinalFile (setFileState (Config.mk ["r"] .missing 0 (fun _ => .success ["x"])
        (fun _ _ _ => true))
      (runFinalFile (Config.mk ["r"] .missing 0 (fun _ => .success ["x"])
        (fun _ _ _ => true))))
      = runFinalFile (Config.mk ["r"] .missing 0 (fun _ => .success ["x"])
        (fun _ _ _ => true)) :=
  unchanged_page_idempotent
    (Config.mk ["r"] .missing 0 (fun _ => .success ["x"]) (fun _ _ _ => true))
    ["x"] (by decide) rfl

/-- C10: an identifier without the separator `" || "` is processed with
the whole identifier as title and the `"Unknown Date"` sentinel as date
(so the first-run cutoff can never suppress it, and its full text
appears in the message body); an identifier containing the separator is
split at the FIRST occurrence, the title being everything after it. -/
theorem separator_split_semantics :
    (∀ ident : String, pySplitOnce " || " ident = none →
      identifierParts ident = ("Unknown Date", ident)
      ∧ (∀ fc : Option Int, sendDecision fc (identifierParts ident).1 = true)
      ∧ buildMessage (identifierParts ident).2
          = "🆕 Новая новость TLScontact: " ++ ident ++ "\nПроверьте: " ++ tlsContactUrl)
    ∧ (∀ ident pre post : String, pySplitOnce " || " ident = some (pre, post) →
      identifierParts ident = (pre, post))
    ∧ identifierParts "A || B || C" = ("A", "B || C")
    ∧ (∀ (cfg : Config) (ident : String) (newl : List String),
        cfg.receiverIds ≠ [] → newIdentsOf cfg = .ok newl → ident ∈ newl →
        pySplitOnce " || " ident = none →
        (ident, buildMessage ident) ∈ runBroadcasts cfg) := by
  refine ⟨?_, ?_, by rfl, ?_⟩
  · intro ident h
    have hid : identifierParts ident = ("Unknown Date", ident) := by
      simp [identifierParts, h]
    refine ⟨hid, ?_, ?_⟩
    · intro fc
      rw [hid]
      cases fc <;> rfl
    · rw [hid]
      rfl
  · intro ident pre post h
    simp [identifierParts, h]
  · intro cfg ident newl hrecv hnew hmem hsep
    obtain ⟨r0, rs, hr⟩ := List.exists_cons_of_ne_nil hrecv
    have hlat : ident ∈ getLatestNewsIds cfg.fetchOracle :=
      diffIdents_subset hnew ident hmem
    obtain ⟨a, as, hl⟩ := List.exists_cons_of_ne_nil (List.ne_nil_of_mem hlat)
    obtain ⟨n0, ns, hnl⟩ := List.exists_cons_of_ne_nil (List.ne_nil_of_mem hmem)
    subst hnl
    have hmain := mainRun_notify_path cfg hr hl hnew
    have hid : identifierParts ident = ("Unknown Date", ident) := by
      simp [identifierParts, hsep]
    have hdec : sendDecision (firstRunCutoff cfg) (identifierParts ident).1 = true := by
      rw [hid]
      cases firstRunCutoff cfg <;> rfl
    have hb := notifyAll_fst_mem cfg.sendOracle cfg.receiverIds (firstRunCutoff cfg)
      (n0 :: ns) 0 ident hmem hdec
    rw [hid] at hb
    simp only [runBroadcasts, runEffect, hmain]
    exact hb

/-- Witness for C10 at concrete inputs: a separator-free identifier is
broadcast whole under the sentinel date, and a multi-separator
identifier is split at its first separator. -/
theorem separator_split_semantics_witness :
    (identifierParts "NovostBezRazdelitelya" = ("Unknown Date", "NovostBezRazdelitelya")
      ∧ (∀ fc : Option Int,
          sendDecision fc (identifierParts "NovostBezRazdelitelya").1 = true)
      ∧ buildMessage (identifierParts "NovostBezRazdelitelya").2
          = "🆕 Новая новость TLScontact: " ++ "NovostBezRazdelitelya"
            ++ "\nПроверьте: " ++ tlsContactUrl)
    ∧ identifierParts "2024-01-02 || B" = ("2024-01-02", "B")
    ∧ ("NovostBezRazdelitelya", buildMessage "NovostBezRazdelitelya")
        ∈ runBroadcasts (Config.mk ["r"] .missing 739252
            (fun _ => .success ["NovostBezRazdelitelya"]) (fun _ _ _ => true)) :=
  ⟨separator_split_semantics.1 "NovostBezRazdelitelya" rfl,
   separator_split_semantics.2.1 "2024-01-02 || B" "2024-01-02" "B" rfl,
   separator_split_semantics.2.2.2
     (Config.mk ["r"] .missing 739252 (fun _ => .success ["NovostBezRazdelitelya"])
       (fun _ _ _ => true))
     "NovostBezRazdelitelya" ["NovostBezRazdelitelya"] (by decide) rfl (by decide) rfl⟩
